import Mathlib

set_option linter.unusedVariables false

/-! Shallow embedding of the task / task-group execution engine of
`src/mg_exec_task_item.py` (multigit).

Modelling conventions:
* Pure Python object state becomes explicit Lean records.
* Qt signal emission (`sig_task_done.emit(success, output)`) is modelled by
  returning the emitted event value; listeners receive exactly that value.
* The asynchronous completion of an external process is modelled as an
  explicit transition (`MultiCmdState.taskCompletes`) on the runner state:
  the environment delivers the true outcome of the in-flight task.
* The filesystem check `pathlib.Path(...).exists()` is an external capability
  and enters the model as an explicit boolean parameter.
* UI-only effects (icons, tree items, column widths, text display) are not
  modelled; they do not feed back into the engine state. -/

/-- TaskState mirrors the Python enum `TaskState` of mg_exec_task_item.py. -/
inductive TaskState where
  | NotStarted
  | Started
  | Successful
  | Errored
deriving DecidableEq, Repr

/-- PreConditionState mirrors the Python enum `PreConditionState`. -/
inductive PreConditionState where
  | NotFulfilled
  | FulFilled
  | Errored
deriving DecidableEq, Repr

/-- TaskEvent is the payload of the Qt signal `sig_task_done(bool, str)`. -/
structure TaskEvent where
  success : Bool
  output : String
deriving DecidableEq, Repr

/-- MgExecTask models the data of the Python class `MgExecTask`: description,
the `ignore_failure` flag, the current `task_state` and the command line.
The repository reference is opaque to the engine and is left out. -/
structure MgExecTask where
  desc : String
  ignore_failure : Bool := false
  task_state : TaskState := TaskState.NotStarted
  cmd_line : String := ""
deriving DecidableEq, Repr

/-- Mirrors `MgExecTask.is_task_done`: state Successful or Errored. -/
def MgExecTask.is_task_done (t : MgExecTask) : Bool :=
  match t.task_state with
  | TaskState.Successful => true
  | TaskState.Errored => true
  | _ => false

/-- Mirrors `MgExecTask.is_task_started`: state Started, Successful or Errored. -/
def MgExecTask.is_task_started (t : MgExecTask) : Bool :=
  match t.task_state with
  | TaskState.Started => true
  | TaskState.Successful => true
  | TaskState.Errored => true
  | _ => false

/-- Mirrors `MgExecTask.is_task_successful`. -/
def MgExecTask.is_task_successful (t : MgExecTask) : Bool :=
  t.task_state = TaskState.Successful

/-- Mirrors `MgExecTask.is_task_errored`. -/
def MgExecTask.is_task_errored (t : MgExecTask) : Bool :=
  t.task_state = TaskState.Errored

/-- Mirrors `MgExecTask.run`. Returns the updated task and whether the
concrete execution `_do_run()` was dispatched. An already Started task is a
rejected no-op (only an error is logged); a Successful or Errored task is
first reset to NotStarted, then the state moves to Started and `_do_run()`
is invoked. -/
def MgExecTask.run (t : MgExecTask) : MgExecTask × Bool :=
  if t.task_state = TaskState.Started then
    (t, false)
  else
    let t1 :=
      if t.task_state = TaskState.Successful ∨ t.task_state = TaskState.Errored then
        { t with task_state := TaskState.NotStarted }
      else t
    ({ t1 with task_state := TaskState.Started }, true)

/-- Mirrors `MgExecTask.task_done`. Sets the state from the true outcome,
then emits `sig_task_done`; a failure is reported as success when
`ignore_failure` is set, the output is forwarded unchanged. -/
def MgExecTask.task_done (t : MgExecTask) (success : Bool) (output : String) :
    MgExecTask × TaskEvent :=
  let t1 := { t with
    task_state := if success then TaskState.Successful else TaskState.Errored }
  let emitted := if success = false ∧ t1.ignore_failure then true else success
  (t1, { success := emitted, output := output })

/-- Mirrors `MgExecTask.abort`. Returns the updated task, the event emitted
synchronously (if any), and whether `_do_abort()` was dispatched. A
NotStarted task moves to Errored and `task_done(False, "Aborted before
started.")` is invoked; a Started task delegates to `_do_abort()` whose
completion arrives later; a finished task is untouched. -/
def MgExecTask.abort (t : MgExecTask) : MgExecTask × Option TaskEvent × Bool :=
  if t.task_state = TaskState.NotStarted then
    let t1 := { t with task_state := TaskState.Errored }
    let r := t1.task_done false "Aborted before started."
    (r.1, some r.2, false)
  else if t.task_state = TaskState.Started then
    (t, none, true)
  else
    (t, none, false)

/-- MgExecTaskGroup models the Python class `MgExecTaskGroup`: a description,
the ordered task list and the `aborted` flag. The optional precondition
closure is modelled separately (see the two standalone precondition
functions below), since the claims quantify over it externally. -/
structure MgExecTaskGroup where
  desc : String
  tasks : List MgExecTask
  aborted : Bool := false
deriving DecidableEq, Repr

/-- Mirrors `MgExecTaskGroup.is_aborted`. -/
def MgExecTaskGroup.is_aborted (g : MgExecTaskGroup) : Bool :=
  g.aborted

/-- Mirrors `MgExecTaskGroup.is_finished`: aborted, or all tasks done. -/
def MgExecTaskGroup.is_finished (g : MgExecTaskGroup) : Bool :=
  if g.is_aborted then true
  else g.tasks.all (fun t => t.is_task_done)

/-- Mirrors `MgExecTaskGroup.is_successful`: not aborted and all tasks
successful. -/
def MgExecTaskGroup.is_successful (g : MgExecTaskGroup) : Bool :=
  if g.is_aborted then false
  else g.tasks.all (fun t => t.is_task_successful)

/-- Mirrors `MgExecTaskGroup.is_errored`: aborted, or some task errored. -/
def MgExecTaskGroup.is_errored (g : MgExecTaskGroup) : Bool :=
  if g.is_aborted then true
  else g.tasks.any (fun t => t.is_task_errored)

/-- Mirrors `MgExecTaskGroup.is_started`: some task started. -/
def MgExecTaskGroup.is_started (g : MgExecTaskGroup) : Bool :=
  g.tasks.any (fun t => t.is_task_started)

/-- Mirrors `MgExecTaskGroup.abort`: sets the `aborted` flag. -/
def MgExecTaskGroup.abort (g : MgExecTaskGroup) : MgExecTaskGroup :=
  { g with aborted := true }

/-- Mirrors `MgExecTaskGroup.appendTask`. -/
def MgExecTaskGroup.appendTask (g : MgExecTaskGroup) (t : MgExecTask) :
    MgExecTaskGroup :=
  { g with tasks := g.tasks ++ [t] }

/-- Mirrors the closure built by `after_other_taskgroup_is_finished`;
`none` models the Python case `task_group is None`. -/
def after_other_taskgroup_is_finished
    (task_group : Option MgExecTaskGroup) : PreConditionState :=
  match task_group with
  | none => PreConditionState.Errored
  | some tg =>
    if tg.is_finished then PreConditionState.FulFilled
    else PreConditionState.NotFulfilled

/-- Mirrors the closure built by
`after_other_taskgroup_is_started_and_dir_exists`; `none` models the Python
case `task_group is None`, and `dirExists` abstracts the external check
`pathlib.Path(task_group.repo.fullpath).exists()`. -/
def after_other_taskgroup_is_started_and_dir_exists
    (task_group : Option MgExecTaskGroup) (dirExists : Bool) : PreConditionState :=
  match task_group with
  | none => PreConditionState.Errored
  | some tg =>
    if tg.is_finished then PreConditionState.FulFilled
    else if tg.is_started = false then PreConditionState.NotFulfilled
    else if dirExists = false then PreConditionState.NotFulfilled
    else PreConditionState.FulFilled

/-- UserAction mirrors the Python flag enum `UserActionOnGitError`; the
engine only ever compares single values for equality. -/
inductive UserAction where
  | NOTHING
  | ABORT
  | CONTINUE
  | RETRY
  | OK
deriving DecidableEq, Repr

/-- RunnerPhase encodes the control position of `MgExecItemMultiCmd` that
Python keeps implicitly: Idle before `run()`, Running while a job item is in
flight, AwaitingChoice while the error button bar is shown
(`self.buttonBar` is not None), Done after `allCmdDone()` ran. -/
inductive RunnerPhase where
  | Idle
  | Running
  | AwaitingChoice
  | Done
deriving DecidableEq, Repr

/-- MultiCmdState models the mutable state of `MgExecItemMultiCmd` together
with its task group. `doneEvents` records the values passed to
`cbExecDone`, in order; `dispatches` counts, per task position, how many
times the concrete execution of that task was dispatched (a fresh
`MgExecItemOneCmd` listener is attached per dispatch, and the listener of a
discarded attempt is disconnected on retry, so each completion reaches
`slotOneCmdDone` exactly once). -/
structure MultiCmdState where
  taskGroup : MgExecTaskGroup
  taskIdx : Int
  abortRequested : Bool
  askQuestionUponFailure : Bool
  nbCmdDone : Nat
  nbError : Nat
  isStarted : Bool
  phase : RunnerPhase
  doneEvents : List Bool
  dispatches : List Nat
deriving Repr

/-- Mirrors the Python property `MgExecItemMultiCmd.isDone`. -/
def MultiCmdState.isDone (st : MultiCmdState) : Bool :=
  decide (st.nbCmdDone = st.taskGroup.tasks.length) || st.abortRequested

/-- Increment the counter at position `i`. -/
def bumpAt (l : List Nat) (i : Nat) : List Nat :=
  l.set i (l.getD i 0 + 1)

/-- Mirrors `MgExecItemMultiCmd.runOneCmdline`. When retrying, the
bookkeeping of the discarded attempt is rolled back (and its completion
listener disconnected); then `taskIdx` advances and the task at the new
index is run through `MgExecTask.run` inside a fresh job item. -/
def MultiCmdState.runOneCmdline (st : MultiCmdState) (retrying : Bool) :
    MultiCmdState :=
  let st1 :=
    if retrying then
      { st with nbCmdDone := st.nbCmdDone - 1, nbError := st.nbError - 1,
                taskIdx := st.taskIdx - 1 }
    else st
  let st2 := { st1 with taskIdx := st1.taskIdx + 1 }
  let i := st2.taskIdx.toNat
  match st2.taskGroup.tasks[i]? with
  | none => st2
  | some task =>
    let r := task.run
    { st2 with
        taskGroup := { st2.taskGroup with tasks := st2.taskGroup.tasks.set i r.1 },
        dispatches := if r.2 then bumpAt st2.dispatches i else st2.dispatches,
        phase := RunnerPhase.Running }

/-- Mirrors `MgExecItemMultiCmd.allCmdDone`: sets `nbCmdDone` to the full
task count and calls `cbExecDone(nbError == 0 and not abortRequested)`. -/
def MultiCmdState.allCmdDone (st : MultiCmdState) : MultiCmdState :=
  let st1 := { st with nbCmdDone := st.taskGroup.tasks.length }
  { st1 with
      doneEvents := st1.doneEvents ++ [decide (st1.nbError = 0) && !st1.abortRequested],
      phase := RunnerPhase.Done }

/-- Mirrors `MgExecItemMultiCmd.slotOneCmdDone`, receiving the success value
emitted by the completed task. -/
def MultiCmdState.slotOneCmdDone (st : MultiCmdState) (success : Bool) :
    MultiCmdState :=
  let st1 := { st with
    nbCmdDone := st.nbCmdDone + 1,
    nbError := if success then st.nbError else st.nbError + 1 }
  if success = false ∧ st1.abortRequested = false then
    if st1.askQuestionUponFailure = false then
      st1.allCmdDone
    else
      { st1 with phase := RunnerPhase.AwaitingChoice }
  else if st1.isDone = false then
    st1.runOneCmdline false
  else
    st1.allCmdDone

/-- Mirrors `MgExecItemMultiCmd.handleQuestionResult`. -/
def MultiCmdState.handleQuestionResult (st : MultiCmdState) (result : UserAction) :
    MultiCmdState :=
  if result = UserAction.ABORT ∨ st.abortRequested = true then
    let st1 := { st with taskGroup := st.taskGroup.abort }
    st1.allCmdDone
  else if result = UserAction.CONTINUE then
    st.runOneCmdline false
  else if result = UserAction.RETRY then
    st.runOneCmdline true
  else if result = UserAction.OK then
    st.allCmdDone
  else
    st

/-- Mirrors `MgExecItemMultiCmd.run`. -/
def MultiCmdState.run (st : MultiCmdState) : MultiCmdState :=
  let st1 := { st with isStarted := true }
  st1.runOneCmdline false

/-- Mirrors `MgExecItemMultiCmd.abortItem`. The group is marked aborted and
`abortRequested` set; a pending question is resolved as Abort; when all
jobs were already done nothing happens except that `abortRequested` is
reset; when no job ever started the item finalizes immediately; otherwise
the single in-flight job is cancelled through `MgExecTask._do_abort` and
its completion event later drives finalization through the normal path. -/
def MultiCmdState.abortItem (st : MultiCmdState) : MultiCmdState :=
  let st1 := { st with taskGroup := st.taskGroup.abort, abortRequested := true }
  if st1.phase = RunnerPhase.AwaitingChoice then
    st1.handleQuestionResult UserAction.ABORT
  else if st1.nbCmdDone = st1.taskGroup.tasks.length then
    { st1 with abortRequested := false }
  else if st1.isStarted = false then
    st1.allCmdDone
  else
    st1

/-- Completion of the in-flight task: the environment delivers the true
outcome `success` with `output`; `MgExecTask.task_done` updates the task and
emits the (possibly masked) event, which reaches
`MgExecItemMultiCmd.slotOneCmdDone` through the job item listener. -/
def MultiCmdState.taskCompletes (st : MultiCmdState) (success : Bool) (output : String) :
    MultiCmdState :=
  match st.taskGroup.tasks[st.taskIdx.toNat]? with
  | none => st
  | some task =>
    let r := task.task_done success output
    let st1 := { st with taskGroup :=
        { st.taskGroup with tasks := st.taskGroup.tasks.set st.taskIdx.toNat r.1 } }
    st1.slotOneCmdDone r.2.success

/-- Choices offered by `askQuestionAfterCmdFailed`: Continue, Abort and
Retry while jobs remain; Abort, Retry and Finish after the last job. -/
def MultiCmdState.offeredChoices (st : MultiCmdState) (c : UserAction) : Bool :=
  if st.isDone then
    decide (c = UserAction.ABORT ∨ c = UserAction.RETRY ∨ c = UserAction.OK)
  else
    decide (c = UserAction.CONTINUE ∨ c = UserAction.ABORT ∨ c = UserAction.RETRY)

/-- Initial state of `MgExecItemMultiCmd.__init__` for a task group. -/
def mkInit (g : MgExecTaskGroup) (askQ : Bool) : MultiCmdState :=
  { taskGroup := g, taskIdx := -1, abortRequested := false,
    askQuestionUponFailure := askQ, nbCmdDone := 0, nbError := 0,
    isStarted := false, phase := RunnerPhase.Idle, doneEvents := [],
    dispatches := g.tasks.map (fun _ => 0) }

/-- Constructor precondition of `MgExecItemMultiCmd`: a nonempty task list
(the Python constructor asserts `len(taskGroup) > 0`) of fresh tasks in a
not-yet-aborted group. -/
def validInitGroup (g : MgExecTaskGroup) : Prop :=
  g.tasks ≠ [] ∧ g.aborted = false ∧
  ∀ t ∈ g.tasks, t.task_state = TaskState.NotStarted

instance (g : MgExecTaskGroup) : Decidable (validInitGroup g) := by
  unfold validInitGroup; infer_instance

/-- One event processed by the runner: the initial `run()` call, the
completion of the in-flight task, a user answer to the failure question, or
an external `abortItem()` request. -/
inductive MultiStep : MultiCmdState → MultiCmdState → Prop where
  | start (st : MultiCmdState) :
      st.phase = RunnerPhase.Idle → MultiStep st st.run
  | complete (st : MultiCmdState) (success : Bool) (output : String) :
      st.phase = RunnerPhase.Running → MultiStep st (st.taskCompletes success output)
  | choice (st : MultiCmdState) (c : UserAction) :
      st.phase = RunnerPhase.AwaitingChoice → st.offeredChoices c = true →
      MultiStep st (st.handleQuestionResult c)
  | abortReq (st : MultiCmdState) : MultiStep st st.abortItem

/-- Reflexive transitive closure of `MultiStep`. -/
inductive MultiSteps : MultiCmdState → MultiCmdState → Prop where
  | refl (st : MultiCmdState) : MultiSteps st st
  | tail (st st' st'' : MultiCmdState) :
      MultiSteps st st' → MultiStep st' st'' → MultiSteps st st''

/-- States reachable by the runner from a freshly constructed item. -/
inductive MultiReachable : MultiCmdState → Prop where
  | init (g : MgExecTaskGroup) (askQ : Bool) :
      validInitGroup g → MultiReachable (mkInit g askQ)
  | step (st st' : MultiCmdState) :
      MultiReachable st → MultiStep st st' → MultiReachable st'

/-! Concrete tasks, groups and runs used by the end-to-end scenarios of the
specification and by the witnesses. A task object does not decide its own
outcome; success or failure is delivered by the environment through
`taskCompletes`. -/

/-- A fresh ordinary task. -/
def taskT1 : MgExecTask := { desc := "T1" }

/-- A second fresh ordinary task. -/
def taskT2 : MgExecTask := { desc := "T2" }

/-- A fresh task with the ignore_failure flag set. -/
def taskIgn : MgExecTask := { desc := "Ign", ignore_failure := true }

/-- A task currently in state Started. -/
def taskStarted : MgExecTask := { desc := "S", task_state := TaskState.Started }

/-- A task already finished successfully. -/
def taskDoneOk : MgExecTask := { desc := "K", task_state := TaskState.Successful }

/-- A group with no task at all. -/
def emptyGroup : MgExecTaskGroup := { desc := "E", tasks := [] }

/-- Two-task group for scenarios B and C. -/
def grpC : MgExecTaskGroup := { desc := "C", tasks := [taskT1, taskT2] }

/-- One-task group for scenario D and the abort-after-completion scenario. -/
def grpD : MgExecTaskGroup := { desc := "D", tasks := [taskT1] }

/-- Scenario C, step 1: the runner starts on [T1, T2] with questions on. -/
def scC1 : MultiCmdState := (mkInit grpC true).run

/-- Scenario C, step 2: T1 completes with a failure. -/
def scC2 : MultiCmdState := scC1.taskCompletes false "boom"

/-- Scenario C, step 3: the user chooses Continue. -/
def scC3 : MultiCmdState := scC2.handleQuestionResult UserAction.CONTINUE

/-- Scenario C, step 4: T2 completes successfully. -/
def scC4 : MultiCmdState := scC3.taskCompletes true "fine"

/-- Scenario D, step 1: the runner starts on [T1] with questions on. -/
def scD1 : MultiCmdState := (mkInit grpD true).run

/-- Scenario D, step 2: T1 completes with a failure. -/
def scD2 : MultiCmdState := scD1.taskCompletes false "boom"

/-- Scenario D, step 3: the user chooses Retry. -/
def scD3 : MultiCmdState := scD2.handleQuestionResult UserAction.RETRY

/-- Scenario D, step 4: the second attempt of T1 succeeds. -/
def scD4 : MultiCmdState := scD3.taskCompletes true "fine"

/-- Scenario B, step 1: the runner starts on [T1, T2] with questions off. -/
def scB1 : MultiCmdState := (mkInit grpC false).run

/-- Successful-run scenario, step 1: the runner starts on [T1]. -/
def scS1 : MultiCmdState := (mkInit grpD true).run

/-- Successful-run scenario, step 2: T1 completes successfully; the group is
finalized with a success report. -/
def scS2 : MultiCmdState := scS1.taskCompletes true "fine"

/-- C1: delivering a failing completion to a task with ignore_failure set
leaves the internal state Errored (is_task_successful false,
is_task_errored true) while the emitted completion event carries
success = true with the output unchanged; without ignore_failure the
emitted success equals the true outcome. -/
theorem claim_C1 (t u : MgExecTask) (s : Bool) (o : String)
    (ht : t.ignore_failure = true) (hu : u.ignore_failure = false) :
    (t.task_done false o).1.is_task_successful = false ∧
    (t.task_done false o).1.is_task_errored = true ∧
    (t.task_done false o).1.task_state = TaskState.Errored ∧
    (t.task_done false o).2.success = true ∧
    (t.task_done false o).2.output = o ∧
    (u.task_done s o).2.success = s ∧
    (u.task_done s o).2.output = o := by
  refine ⟨?_, ?_, ?_, ?_, ?_, ?_, ?_⟩ <;>
    simp [MgExecTask.task_done, MgExecTask.is_task_successful,
      MgExecTask.is_task_errored, ht, hu]

/-- Witness for C1 at concrete tasks. -/
theorem claim_C1_witness :
    (taskIgn.task_done false "out").1.is_task_successful = false ∧
    (taskIgn.task_done false "out").1.is_task_errored = true ∧
    (taskIgn.task_done false "out").1.task_state = TaskState.Errored ∧
    (taskIgn.task_done false "out").2.success = true ∧
    (taskIgn.task_done false "out").2.output = "out" ∧
    (taskT1.task_done true "out").2.success = true ∧
    (taskT1.task_done true "out").2.output = "out" :=
  claim_C1 taskIgn taskT1 true "out" rfl rfl

/-- C2: allCmdDone sets the done count to the full task count and invokes
the completion callback exactly once with
overallSuccess = (nbError = 0 and not abortRequested); in scenario C
([T1 fails, T2 succeeds], user chooses Continue) the final error count is 1
and the reported overall success is false. -/
theorem claim_C2 (st : MultiCmdState) :
    (st.allCmdDone).nbCmdDone = st.taskGroup.tasks.length ∧
    (st.allCmdDone).doneEvents
      = st.doneEvents ++ [decide (st.nbError = 0) && !st.abortRequested] ∧
    scC4.nbError = 1 ∧ scC4.nbCmdDone = 2 ∧ scC4.phase = RunnerPhase.Done ∧
    scC4.doneEvents = [false] := by
  refine ⟨rfl, rfl, ?_, ?_, ?_, ?_⟩ <;> decide

/-- C4: run() on a Started task is a rejected no-op (state unchanged, no
dispatch of the concrete execution); run() on a finished task proceeds to
Started and dispatches the concrete execution. -/
theorem claim_C4 (t u : MgExecTask) (ht : t.task_state = TaskState.Started)
    (hu : u.task_state = TaskState.Successful ∨ u.task_state = TaskState.Errored) :
    t.run = (t, false) ∧
    (u.run).1.task_state = TaskState.Started ∧ (u.run).2 = true := by
  rcases hu with h | h <;> simp [MgExecTask.run, ht, h]

/-- Witness for C4 at concrete tasks. -/
theorem claim_C4_witness :
    taskStarted.run = (taskStarted, false) ∧
    (taskDoneOk.run).1.task_state = TaskState.Started ∧ (taskDoneOk.run).2 = true :=
  claim_C4 taskStarted taskDoneOk rfl (Or.inl rfl)

/-- C5 counterexample: aborting a NotStarted task whose ignore_failure flag
is set emits a completion event with success = true, not success = false as
the claim states for every NotStarted task. -/
theorem claim_C5_counterexample :
    (taskIgn.abort).2.1 = some { success := true, output := "Aborted before started." } ∧
    ¬ (taskIgn.abort).2.1 = some { success := false, output := "Aborted before started." } := by
  refine ⟨rfl, ?_⟩; decide

/-- C5 (amended): abort() on a NotStarted task transitions it directly to
Errored and emits one completion event with the fixed message "Aborted
before started." and success equal to the ignore_failure flag — false for
an ordinary task, true when the failure is masked (the synthesized failure
goes through task_done, so ignoreFailure masking applies to it as well);
abort() on an already finished task is a no-op with no event emitted. -/
theorem claim_C5 (t u : MgExecTask) (ht : t.task_state = TaskState.NotStarted)
    (hu : u.task_state = TaskState.Successful ∨ u.task_state = TaskState.Errored) :
    (t.abort).1.task_state = TaskState.Errored ∧
    (t.abort).2.1 = some { success := t.ignore_failure, output := "Aborted before started." } ∧
    u.abort = (u, none, false) := by
  refine ⟨?_, ?_, ?_⟩
  · simp [MgExecTask.abort, MgExecTask.task_done, ht]
  · simp [MgExecTask.abort, MgExecTask.task_done, ht]
  · rcases hu with h | h <;> simp [MgExecTask.abort, h]

/-- Witness for C5 (amended) at concrete tasks. -/
theorem claim_C5_witness :
    (taskT1.abort).1.task_state = TaskState.Errored ∧
    (taskT1.abort).2.1 = some { success := taskT1.ignore_failure, output := "Aborted before started." } ∧
    taskDoneOk.abort = (taskDoneOk, none, false) :=
  claim_C5 taskT1 taskDoneOk rfl (Or.inl rfl)

/-- C7: the started-and-directory-exists precondition is Errored when the
referenced group is absent; FulFilled for a finished group regardless of
the directory check; NotFulfilled for a group neither finished nor
started; FulFilled for a started, unfinished group whose directory exists;
NotFulfilled for a started, unfinished group whose directory is missing. -/
theorem claim_C7 (d : Bool) (g1 g2 g3 g4 : MgExecTaskGroup)
    (h1 : g1.is_finished = true)
    (h2 : g2.is_finished = false ∧ g2.is_started = false)
    (h3 : g3.is_finished = false ∧ g3.is_started = true)
    (h4 : g4.is_finished = false ∧ g4.is_started = true) :
    after_other_taskgroup_is_started_and_dir_exists none d = PreConditionState.Errored ∧
    after_other_taskgroup_is_started_and_dir_exists (some g1) d = PreConditionState.FulFilled ∧
    after_other_taskgroup_is_started_and_dir_exists (some g2) d = PreConditionState.NotFulfilled ∧
    after_other_taskgroup_is_started_and_dir_exists (some g3) true = PreConditionState.FulFilled ∧
    after_other_taskgroup_is_started_and_dir_exists (some g4) false = PreConditionState.NotFulfilled := by
  obtain ⟨h2f, h2s⟩ := h2
  obtain ⟨h3f, h3s⟩ := h3
  obtain ⟨h4f, h4s⟩ := h4
  refine ⟨rfl, ?_, ?_, ?_, ?_⟩ <;>
    simp [after_other_taskgroup_is_started_and_dir_exists,
      h1, h2f, h2s, h3f, h3s, h4f, h4s]

/-- Group used as the finished dependency in the C7 witness. -/
def grpFinished : MgExecTaskGroup := { desc := "F", tasks := [taskDoneOk] }

/-- Group used as the not-started dependency in the C7 witness. -/
def grpFresh : MgExecTaskGroup := { desc := "N", tasks := [taskT1] }

/-- Group used as the started, unfinished dependency in the C7 witness. -/
def grpRunning : MgExecTaskGroup := { desc := "R", tasks := [taskStarted] }

/-- Witness for C7 at concrete groups. -/
theorem claim_C7_witness :
    after_other_taskgroup_is_started_and_dir_exists none true = PreConditionState.Errored ∧
    after_other_taskgroup_is_started_and_dir_exists (some grpFinished) true = PreConditionState.FulFilled ∧
    after_other_taskgroup_is_started_and_dir_exists (some grpFresh) true = PreConditionState.NotFulfilled ∧
    after_other_taskgroup_is_started_and_dir_exists (some grpRunning) true = PreConditionState.FulFilled ∧
    after_other_taskgroup_is_started_and_dir_exists (some grpRunning) false = PreConditionState.NotFulfilled :=
  claim_C7 true grpFinished grpFresh grpRunning grpRunning rfl ⟨rfl, rfl⟩ ⟨rfl, rfl⟩ ⟨rfl, rfl⟩

/-- C10: a group with an empty task list that was not aborted counts as
vacuously finished and successful: is_finished and is_successful are true,
is_errored and is_started are false. -/
theorem claim_C10 (g : MgExecTaskGroup) (h1 : g.tasks = []) (h2 : g.aborted = false) :
    g.is_finished = true ∧ g.is_successful = true ∧
    g.is_errored = false ∧ g.is_started = false := by
  simp [MgExecTaskGroup.is_finished, MgExecTaskGroup.is_successful,
    MgExecTaskGroup.is_errored, MgExecTaskGroup.is_started,
    MgExecTaskGroup.is_aborted, h1, h2]

/-- Witness for C10 at the concrete empty group. -/
theorem claim_C10_witness :
    emptyGroup.is_finished = true ∧ emptyGroup.is_successful = true ∧
    emptyGroup.is_errored = false ∧ emptyGroup.is_started = false :=
  claim_C10 emptyGroup rfl rfl

/-! Runner invariant: the control phase determines the shape of the task
states — tasks before the current index are terminal, the current one is
Started (Running) or Errored (AwaitingChoice), tasks after it are
NotStarted. -/

/-- A terminal task state. -/
def doneState (s : TaskState) : Prop :=
  s = TaskState.Successful ∨ s = TaskState.Errored

/-- Invariant while no job has been run yet. -/
def InvIdle (st : MultiCmdState) : Prop :=
  (∀ t ∈ st.taskGroup.tasks, t.task_state = TaskState.NotStarted) ∧
  st.taskIdx = -1 ∧ st.nbCmdDone = 0 ∧ st.abortRequested = false ∧
  st.isStarted = false

/-- Invariant while the job at position k is in flight. -/
def InvRunning (st : MultiCmdState) : Prop :=
  st.isStarted = true ∧
  ∃ k : Nat, st.taskIdx = (k : Int) ∧ k < st.taskGroup.tasks.length ∧
    st.nbCmdDone = k ∧
    (∀ t, st.taskGroup.tasks[k]? = some t → t.task_state = TaskState.Started) ∧
    (∀ j t, j < k → st.taskGroup.tasks[j]? = some t → doneState t.task_state) ∧
    (∀ j t, k < j → st.taskGroup.tasks[j]? = some t →
      t.task_state = TaskState.NotStarted)

/-- Invariant while the failure question for the job at position k is shown. -/
def InvWaiting (st : MultiCmdState) : Prop :=
  st.isStarted = true ∧ st.abortRequested = false ∧
  st.askQuestionUponFailure = true ∧ 1 ≤ st.nbError ∧
  ∃ k : Nat, st.taskIdx = (k : Int) ∧ k < st.taskGroup.tasks.length ∧
    st.nbCmdDone = k + 1 ∧
    (∀ t, st.taskGroup.tasks[k]? = some t → t.task_state = TaskState.Errored) ∧
    (∀ j t, j < k → st.taskGroup.tasks[j]? = some t → doneState t.task_state) ∧
    (∀ j t, k < j → st.taskGroup.tasks[j]? = some t →
      t.task_state = TaskState.NotStarted)

/-- Invariant after finalization. -/
def InvDone (st : MultiCmdState) : Prop :=
  st.nbCmdDone = st.taskGroup.tasks.length ∧
  (∀ t ∈ st.taskGroup.tasks, t.task_state ≠ TaskState.Started)

/-- The global runner invariant. -/
def RunnerInv (st : MultiCmdState) : Prop :=
  st.taskGroup.tasks ≠ [] ∧
  st.dispatches.length = st.taskGroup.tasks.length ∧
  (st.phase = RunnerPhase.Idle → InvIdle st) ∧
  (st.phase = RunnerPhase.Running → InvRunning st) ∧
  (st.phase = RunnerPhase.AwaitingChoice → InvWaiting st) ∧
  (st.phase = RunnerPhase.Done → InvDone st)

/-- Running a task that is not in state Started moves it to Started and
dispatches the concrete execution. -/
theorem MgExecTask.run_of_not_started (t : MgExecTask)
    (h : t.task_state ≠ TaskState.Started) :
    t.run = ({ t with task_state := TaskState.Started }, true) := by
  unfold MgExecTask.run
  rw [if_neg h]
  by_cases hc : t.task_state = TaskState.Successful ∨ t.task_state = TaskState.Errored <;>
    simp [hc]

/-- Unfolding of `runOneCmdline` in the non-retry case, when the advanced
index holds a task that is not Started. -/
theorem runOne_false_eq (st : MultiCmdState) (i : Nat) (t : MgExecTask)
    (hidx : st.taskIdx + 1 = (i : Int))
    (hget : st.taskGroup.tasks[i]? = some t)
    (hns : t.task_state ≠ TaskState.Started) :
    st.runOneCmdline false =
      { st with
        taskIdx := (i : Int),
        taskGroup := { st.taskGroup with
          tasks := st.taskGroup.tasks.set i { t with task_state := TaskState.Started } },
        dispatches := bumpAt st.dispatches i,
        phase := RunnerPhase.Running } := by
  unfold MultiCmdState.runOneCmdline
  simp [hidx, Int.toNat_natCast, hget, MgExecTask.run_of_not_started t hns]

/-- Unfolding of `runOneCmdline` in the retry case, when the current index
holds a task that is not Started. -/
theorem runOne_retry_eq (st : MultiCmdState) (k : Nat) (t : MgExecTask)
    (hidx : st.taskIdx = (k : Int))
    (hget : st.taskGroup.tasks[k]? = some t)
    (hns : t.task_state ≠ TaskState.Started) :
    st.runOneCmdline true =
      { st with
        nbCmdDone := st.nbCmdDone - 1, nbError := st.nbError - 1,
        taskIdx := (k : Int),
        taskGroup := { st.taskGroup with
          tasks := st.taskGroup.tasks.set k { t with task_state := TaskState.Started } },
        dispatches := bumpAt st.dispatches k,
        phase := RunnerPhase.Running } := by
  unfold MultiCmdState.runOneCmdline
  have h1 : st.taskIdx - 1 + 1 = (k : Int) := by omega
  simp [h1, Int.toNat_natCast, hget, MgExecTask.run_of_not_started t hns]

/-- A nonempty task list stays nonempty under set. -/
theorem set_ne_nil (l : List MgExecTask) (i : Nat) (a : MgExecTask)
    (h : l ≠ []) : l.set i a ≠ [] := by
  intro hcon
  apply h
  have hl := congrArg List.length hcon
  simp [List.length_set] at hl
  exact hl

/-- The start event preserves the runner invariant. -/
theorem inv_start (st : MultiCmdState) (hinv : RunnerInv st)
    (hph : st.phase = RunnerPhase.Idle) : RunnerInv st.run := by
  obtain ⟨hne, hdisp, hidle, _, _, _⟩ := hinv
  obtain ⟨hall, hidx, hcnt, habr, hstart⟩ := hidle hph
  have hlen : 0 < st.taskGroup.tasks.length := List.length_pos.mpr hne
  obtain ⟨t0, ht0⟩ : ∃ t, st.taskGroup.tasks[0]? = some t :=
    ⟨_, List.getElem?_eq_some_iff.mpr ⟨hlen, rfl⟩⟩
  have ht0mem : t0 ∈ st.taskGroup.tasks := List.mem_iff_getElem?.mpr ⟨0, ht0⟩
  have ht0ns : t0.task_state = TaskState.NotStarted := hall _ ht0mem
  have hrun : st.run = ({ st with isStarted := true } : MultiCmdState).runOneCmdline false := rfl
  rw [hrun, runOne_false_eq _ 0 t0 (by simp [hidx]) (by simpa using ht0)
    (by simp [ht0ns])]
  refine ⟨set_ne_nil _ _ _ hne, by simp [bumpAt, List.length_set, hdisp],
    ?_, ?_, ?_, ?_⟩
  · intro h; simp at h
  · intro _
    refine ⟨rfl, 0, rfl, by simpa using hlen, by simpa using hcnt, ?_, ?_, ?_⟩
    · intro t htt
      rw [List.getElem?_set_self (by simpa using hlen)] at htt
      injection htt with h
      subst h
      rfl
    · intro j t hj
      exact absurd hj (Nat.not_lt_zero j)
    · intro j t hj hget2
      rw [List.getElem?_set_ne (by omega)] at hget2
      exact hall _ (List.mem_iff_getElem?.mpr ⟨j, hget2⟩)
  · intro h; simp at h
  · intro h; simp at h

/-- A member of `l.set k d` (with k in range) is d or an original member at
another position. -/
theorem mem_set_cases (l : List MgExecTask) (k : Nat) (d : MgExecTask)
    (hk : k < l.length) (t : MgExecTask) (hmem : t ∈ l.set k d) :
    t = d ∨ ∃ j, j ≠ k ∧ l[j]? = some t := by
  obtain ⟨j, hj⟩ := List.mem_iff_getElem?.mp hmem
  by_cases hjk : j = k
  · subst hjk
    rw [List.getElem?_set_self hk] at hj
    injection hj with h
    exact Or.inl h.symm
  · rw [List.getElem?_set_ne (fun h => hjk h.symm)] at hj
    exact Or.inr ⟨j, hjk, hj⟩

/-- Unfolding of `taskCompletes` when the in-flight index holds a task. -/
theorem taskCompletes_eq (st : MultiCmdState) (k : Nat) (t : MgExecTask)
    (hidx : st.taskIdx = (k : Int))
    (hget : st.taskGroup.tasks[k]? = some t) (s : Bool) (o : String) :
    st.taskCompletes s o =
      ({ st with taskGroup := { st.taskGroup with
          tasks := st.taskGroup.tasks.set k (t.task_done s o).1 } } : MultiCmdState).slotOneCmdDone
        (t.task_done s o).2.success := by
  unfold MultiCmdState.taskCompletes
  simp [hidx, Int.toNat_natCast, hget]

/-- slotOneCmdDone on an unmasked failure, abort not requested, questions
on: the runner enters the question phase. -/
theorem slot_eq_question (st : MultiCmdState) (hab : st.abortRequested = false)
    (hq : st.askQuestionUponFailure = true) :
    st.slotOneCmdDone false =
      { st with nbCmdDone := st.nbCmdDone + 1,
                nbError := st.nbError + 1, phase := RunnerPhase.AwaitingChoice } := by
  unfold MultiCmdState.slotOneCmdDone
  simp [hab, hq]

/-- slotOneCmdDone on an unmasked failure, abort not requested, questions
off: the runner finalizes immediately. -/
theorem slot_eq_fail_noquestion (st : MultiCmdState) (hab : st.abortRequested = false)
    (hq : st.askQuestionUponFailure = false) :
    st.slotOneCmdDone false =
      ({ st with nbCmdDone := st.nbCmdDone + 1,
                 nbError := st.nbError + 1 } : MultiCmdState).allCmdDone := by
  unfold MultiCmdState.slotOneCmdDone
  simp [hab, hq]

/-- slotOneCmdDone on an unmasked failure with abort requested: isDone
holds through abortRequested, so the runner finalizes. -/
theorem slot_eq_fail_aborted (st : MultiCmdState) (hab : st.abortRequested = true) :
    st.slotOneCmdDone false =
      ({ st with nbCmdDone := st.nbCmdDone + 1,
                 nbError := st.nbError + 1 } : MultiCmdState).allCmdDone := by
  unfold MultiCmdState.slotOneCmdDone
  simp [hab, MultiCmdState.isDone]

/-- slotOneCmdDone on a reported success while jobs remain and no abort was
requested: the next task is run. -/
theorem slot_eq_success_more (st : MultiCmdState) (hab : st.abortRequested = false)
    (hlen : ¬ st.nbCmdDone + 1 = st.taskGroup.tasks.length) :
    st.slotOneCmdDone true
      = ({ st with nbCmdDone := st.nbCmdDone + 1 } : MultiCmdState).runOneCmdline false := by
  unfold MultiCmdState.slotOneCmdDone
  simp [hab, hlen, MultiCmdState.isDone]

/-- slotOneCmdDone on a reported success when this was the last job or an
abort was requested: the runner finalizes. -/
theorem slot_eq_success_done (st : MultiCmdState)
    (hdone : st.nbCmdDone + 1 = st.taskGroup.tasks.length ∨ st.abortRequested = true) :
    st.slotOneCmdDone true
      = ({ st with nbCmdDone := st.nbCmdDone + 1 } : MultiCmdState).allCmdDone := by
  rcases hdone with h | h <;>
    (unfold MultiCmdState.slotOneCmdDone; simp [h, MultiCmdState.isDone])

/-- allCmdDone establishes the runner invariant as soon as no task of the
group is in state Started. -/
theorem inv_allCmdDone (st : MultiCmdState)
    (hne : st.taskGroup.tasks ≠ [])
    (hdisp : st.dispatches.length = st.taskGroup.tasks.length)
    (hns : ∀ t ∈ st.taskGroup.tasks, t.task_state ≠ TaskState.Started) :
    RunnerInv st.allCmdDone := by
  refine ⟨hne, hdisp, ?_, ?_, ?_, ?_⟩
  · intro h; simp [MultiCmdState.allCmdDone] at h
  · intro h; simp [MultiCmdState.allCmdDone] at h
  · intro h; simp [MultiCmdState.allCmdDone] at h
  · intro _
    exact ⟨rfl, hns⟩

/-- The completion event preserves the runner invariant. -/
theorem inv_complete (st : MultiCmdState) (hinv : RunnerInv st)
    (hph : st.phase = RunnerPhase.Running) (s : Bool) (o : String) :
    RunnerInv (st.taskCompletes s o) := by
  obtain ⟨hne, hdisp, _, hrunInv, _, _⟩ := hinv
  obtain ⟨hstart, k, hidx, hk, hcnt, hcur, hbefore, hafter⟩ := hrunInv hph
  obtain ⟨tk, htk⟩ : ∃ t, st.taskGroup.tasks[k]? = some t :=
    ⟨_, List.getElem?_eq_some_iff.mpr ⟨hk, rfl⟩⟩
  rw [taskCompletes_eq st k tk hidx htk s o]
  have hddone : doneState (tk.task_done s o).1.task_state := by
    cases s <;> simp [doneState, MgExecTask.task_done]
  have hdns : (tk.task_done s o).1.task_state ≠ TaskState.Started := by
    rcases hddone with h | h <;> simp [h]
  have hothersNS : ∀ j t, j ≠ k → st.taskGroup.tasks[j]? = some t →
      t.task_state ≠ TaskState.Started := by
    intro j t hjk hget2
    rcases Nat.lt_or_ge j k with hlt | hge
    · rcases hbefore j t hlt hget2 with h | h <;> simp [h]
    · have hkj : k < j := by omega
      rw [hafter j t hkj hget2]
      simp
  have hnsAll : ∀ t ∈ st.taskGroup.tasks.set k (tk.task_done s o).1,
      t.task_state ≠ TaskState.Started := by
    intro t hmem
    rcases mem_set_cases _ _ _ hk t hmem with h | ⟨j, hjk, hj⟩
    · rw [h]; exact hdns
    · exact hothersNS j t hjk hj
  cases he : (tk.task_done s o).2.success with
  | false =>
    have hsf : s = false := by
      cases s
      · rfl
      · simp [MgExecTask.task_done] at he
    subst hsf
    have hderr : (tk.task_done false o).1.task_state = TaskState.Errored := by
      simp [MgExecTask.task_done]
    by_cases hab : st.abortRequested = true
    · rw [slot_eq_fail_aborted _ (by exact hab)]
      exact inv_allCmdDone _ (set_ne_nil _ _ _ hne)
        (by simpa [List.length_set] using hdisp) hnsAll
    · have hab2 : st.abortRequested = false := by simpa using hab
      by_cases hq : st.askQuestionUponFailure = false
      · rw [slot_eq_fail_noquestion _ (by exact hab2) (by exact hq)]
        exact inv_allCmdDone _ (set_ne_nil _ _ _ hne)
          (by simpa [List.length_set] using hdisp) hnsAll
      · have hq2 : st.askQuestionUponFailure = true := by simpa using hq
        rw [slot_eq_question _ (by exact hab2) (by exact hq2)]
        refine ⟨set_ne_nil _ _ _ hne, by simpa [List.length_set] using hdisp,
          ?_, ?_, ?_, ?_⟩
        · intro h; simp at h
        · intro h; simp at h
        · intro _
          refine ⟨hstart, hab2, hq2, Nat.succ_le_succ (Nat.zero_le _),
            k, hidx, by simpa [List.length_set] using hk, by simp [hcnt],
            ?_, ?_, ?_⟩
          · intro t htt
            rw [List.getElem?_set_self hk] at htt
            injection htt with h
            rw [← h]
            exact hderr
          · intro j t hj hget2
            rw [List.getElem?_set_ne (by omega)] at hget2
            exact hbefore j t hj hget2
          · intro j t hj hget2
            rw [List.getElem?_set_ne (by omega)] at hget2
            exact hafter j t hj hget2
        · intro h; simp at h
  | true =>
    by_cases hA : st.abortRequested = true
    · rw [slot_eq_success_done _ (by exact Or.inr hA)]
      exact inv_allCmdDone _ (set_ne_nil _ _ _ hne)
        (by simpa [List.length_set] using hdisp) hnsAll
    · have hA2 : st.abortRequested = false := by simpa using hA
      by_cases hL : k + 1 = st.taskGroup.tasks.length
      · rw [slot_eq_success_done _ (by exact Or.inl (by simp [List.length_set, hcnt, hL]))]
        exact inv_allCmdDone _ (set_ne_nil _ _ _ hne)
          (by simpa [List.length_set] using hdisp) hnsAll
      · have hk2 : k + 1 < st.taskGroup.tasks.length := by omega
        obtain ⟨t2, ht2⟩ :
            ∃ t, (st.taskGroup.tasks.set k (tk.task_done s o).1)[k+1]? = some t :=
          ⟨_, List.getElem?_eq_some_iff.mpr ⟨by simpa [List.length_set] using hk2, rfl⟩⟩
        have ht2orig : st.taskGroup.tasks[k+1]? = some t2 := by
          rw [List.getElem?_set_ne (by omega)] at ht2
          exact ht2
        have ht2ns : t2.task_state = TaskState.NotStarted :=
          hafter (k+1) t2 (by omega) ht2orig
        rw [slot_eq_success_more _ (by exact hA2)
          (by exact fun hcon => hL (by simpa [List.length_set, hcnt] using hcon))]
        rw [runOne_false_eq _ (k+1) t2 (by simp [hidx]) ht2
          (by simp [ht2ns])]
        refine ⟨set_ne_nil _ _ _ (set_ne_nil _ _ _ hne),
          by simp [bumpAt, List.length_set, hdisp], ?_, ?_, ?_, ?_⟩
        · intro h; simp at h
        · intro _
          refine ⟨hstart, k + 1, rfl, by simpa [List.length_set] using hk2,
            by simp [hcnt], ?_, ?_, ?_⟩
          · intro t htt
            rw [List.getElem?_set_self (by simpa [List.length_set] using hk2)] at htt
            injection htt with h
            rw [← h]
          · intro j t hj hget2
            rw [List.getElem?_set_ne (by omega)] at hget2
            by_cases hjk : j = k
            · subst hjk
              rw [List.getElem?_set_self hk] at hget2
              injection hget2 with h
              rw [← h]
              exact hddone
            · rw [List.getElem?_set_ne (fun hh => hjk hh.symm)] at hget2
              exact hbefore j t (by omega) hget2
          · intro j t hj hget2
            rw [List.getElem?_set_ne (by omega)] at hget2
            rw [List.getElem?_set_ne (by omega)] at hget2
            exact hafter j t (by omega) hget2
        · intro h; simp at h
        · intro h; simp at h

/-- The user-choice event preserves the runner invariant. -/
theorem inv_choice (st : MultiCmdState) (hinv : RunnerInv st)
    (hph : st.phase = RunnerPhase.AwaitingChoice) (c : UserAction)
    (hc : st.offeredChoices c = true) :
    RunnerInv (st.handleQuestionResult c) := by
  obtain ⟨hne, hdisp, _, _, hwaitInv, _⟩ := hinv
  obtain ⟨hstart, hab, hq, herr, k, hidx, hk, hcnt, hcur, hbefore, hafter⟩ :=
    hwaitInv hph
  have hnsAll : ∀ t ∈ st.taskGroup.tasks, t.task_state ≠ TaskState.Started := by
    intro t hmem
    obtain ⟨j, hj⟩ := List.mem_iff_getElem?.mp hmem
    by_cases hjk : j = k
    · subst hjk
      rw [hcur t hj]
      simp
    · rcases Nat.lt_or_ge j k with hlt | hge
      · rcases hbefore j t hlt hj with h | h <;> simp [h]
      · rw [hafter j t (by omega) hj]
        simp
  cases c with
  | ABORT =>
    have h1 : st.handleQuestionResult UserAction.ABORT
        = ({ st with taskGroup := st.taskGroup.abort } : MultiCmdState).allCmdDone := by
      unfold MultiCmdState.handleQuestionResult
      simp
    rw [h1]
    exact inv_allCmdDone _ (by exact hne) (by exact hdisp) (by exact hnsAll)
  | CONTINUE =>
    have hdone : st.isDone = false := by
      by_cases h : st.isDone
      · rw [MultiCmdState.offeredChoices, if_pos h] at hc
        simp at hc
      · simpa using h
    have hlen : ¬ st.nbCmdDone = st.taskGroup.tasks.length := by
      intro hcon
      simp [MultiCmdState.isDone, hcon] at hdone
    have hk2 : k + 1 < st.taskGroup.tasks.length := by
      rw [hcnt] at hlen
      omega
    have h1 : st.handleQuestionResult UserAction.CONTINUE = st.runOneCmdline false := by
      unfold MultiCmdState.handleQuestionResult
      simp [hab]
    obtain ⟨t2, ht2⟩ : ∃ t, st.taskGroup.tasks[k+1]? = some t :=
      ⟨_, List.getElem?_eq_some_iff.mpr ⟨hk2, rfl⟩⟩
    have ht2ns : t2.task_state = TaskState.NotStarted := hafter (k+1) t2 (by omega) ht2
    rw [h1, runOne_false_eq _ (k+1) t2 (by simp [hidx]) ht2 (by simp [ht2ns])]
    refine ⟨set_ne_nil _ _ _ hne, by simp [bumpAt, List.length_set, hdisp],
      ?_, ?_, ?_, ?_⟩
    · intro h; simp at h
    · intro _
      refine ⟨hstart, k + 1, rfl, by simpa [List.length_set] using hk2,
        by simp [hcnt], ?_, ?_, ?_⟩
      · intro t htt
        rw [List.getElem?_set_self (by simpa [List.length_set] using hk2)] at htt
        injection htt with h
        rw [← h]
      · intro j t hj hget2
        rw [List.getElem?_set_ne (by omega)] at hget2
        by_cases hjk : j = k
        · subst hjk
          rw [hcur t hget2]
          exact Or.inr rfl
        · exact hbefore j t (by omega) hget2
      · intro j t hj hget2
        rw [List.getElem?_set_ne (by omega)] at hget2
        exact hafter j t (by omega) hget2
    · intro h; simp at h
    · intro h; simp at h
  | RETRY =>
    have h1 : st.handleQuestionResult UserAction.RETRY = st.runOneCmdline true := by
      unfold MultiCmdState.handleQuestionResult
      simp [hab]
    obtain ⟨tk, htk⟩ : ∃ t, st.taskGroup.tasks[k]? = some t :=
      ⟨_, List.getElem?_eq_some_iff.mpr ⟨hk, rfl⟩⟩
    have htkerr : tk.task_state = TaskState.Errored := hcur tk htk
    rw [h1, runOne_retry_eq _ k tk hidx htk (by simp [htkerr])]
    refine ⟨set_ne_nil _ _ _ hne, by simp [bumpAt, List.length_set, hdisp],
      ?_, ?_, ?_, ?_⟩
    · intro h; simp at h
    · intro _
      refine ⟨hstart, k, rfl, by simpa [List.length_set] using hk,
        by simp [hcnt], ?_, ?_, ?_⟩
      · intro t htt
        rw [List.getElem?_set_self hk] at htt
        injection htt with h
        rw [← h]
      · intro j t hj hget2
        rw [List.getElem?_set_ne (by omega)] at hget2
        exact hbefore j t hj hget2
      · intro j t hj hget2
        rw [List.getElem?_set_ne (by omega)] at hget2
        exact hafter j t hj hget2
    · intro h; simp at h
    · intro h; simp at h
  | OK =>
    have h1 : st.handleQuestionResult UserAction.OK = st.allCmdDone := by
      unfold MultiCmdState.handleQuestionResult
      simp [hab]
    rw [h1]
    exact inv_allCmdDone _ hne hdisp hnsAll
  | NOTHING =>
    exfalso
    unfold MultiCmdState.offeredChoices at hc
    by_cases h : st.isDone <;> simp [h] at hc

/-- The external abort request preserves the runner invariant. -/
theorem inv_abortItem (st : MultiCmdState) (hinv : RunnerInv st) :
    RunnerInv st.abortItem := by
  obtain ⟨hne, hdisp, hidleInv, hrunInv, hwaitInv, hdoneInv⟩ := hinv
  have hlen0 : 0 < st.taskGroup.tasks.length := List.length_pos.mpr hne
  cases hph : st.phase with
  | AwaitingChoice =>
    obtain ⟨hstart, hab, hq, herr, k, hidx, hk, hcnt, hcur, hbefore, hafter⟩ :=
      hwaitInv hph
    have hnsAll : ∀ t ∈ st.taskGroup.tasks, t.task_state ≠ TaskState.Started := by
      intro t hmem
      obtain ⟨j, hj⟩ := List.mem_iff_getElem?.mp hmem
      by_cases hjk : j = k
      · subst hjk
        rw [hcur t hj]
        simp
      · rcases Nat.lt_or_ge j k with hlt | hge
        · rcases hbefore j t hlt hj with h | h <;> simp [h]
        · rw [hafter j t (by omega) hj]
          simp
    have h1 : st.abortItem
        = ({ st with taskGroup := st.taskGroup.abort,
                     abortRequested := true } : MultiCmdState).handleQuestionResult
            UserAction.ABORT := by
      unfold MultiCmdState.abortItem
      simp [hph]
    have h2 : ({ st with taskGroup := st.taskGroup.abort,
                         abortRequested := true } : MultiCmdState).handleQuestionResult
          UserAction.ABORT
        = ({ st with taskGroup := st.taskGroup.abort.abort,
                     abortRequested := true } : MultiCmdState).allCmdDone := by
      unfold MultiCmdState.handleQuestionResult
      simp
    rw [h1, h2]
    exact inv_allCmdDone _ (by exact hne) (by exact hdisp) (by exact hnsAll)
  | Idle =>
    obtain ⟨hall, hidx, hcnt, hab, hstartF⟩ := hidleInv hph
    have hne0 : ¬ st.nbCmdDone = st.taskGroup.tasks.length := by
      rw [hcnt]
      omega
    have h1 : st.abortItem
        = ({ st with taskGroup := st.taskGroup.abort,
                     abortRequested := true } : MultiCmdState).allCmdDone := by
      unfold MultiCmdState.abortItem
      simp [hph, hne0, hstartF, MgExecTaskGroup.abort]
    rw [h1]
    refine inv_allCmdDone _ (by exact hne) (by exact hdisp) ?_
    intro t hmem
    rw [hall t hmem]
    simp
  | Running =>
    obtain ⟨hstart, k, hidx, hk, hcnt, hcur, hbefore, hafter⟩ := hrunInv hph
    have hne0 : ¬ st.nbCmdDone = st.taskGroup.tasks.length := by
      rw [hcnt]
      omega
    have h1 : st.abortItem
        = { st with taskGroup := st.taskGroup.abort,
                    abortRequested := true } := by
      unfold MultiCmdState.abortItem
      simp [hph, hne0, hstart, MgExecTaskGroup.abort]
    rw [h1]
    refine ⟨hne, hdisp, ?_, ?_, ?_, ?_⟩
    · intro h; simp [hph] at h
    · intro _
      exact ⟨hstart, k, hidx, hk, hcnt, hcur, hbefore, hafter⟩
    · intro h; simp [hph] at h
    · intro h; simp [hph] at h
  | Done =>
    obtain ⟨hcntD, hnsD⟩ := hdoneInv hph
    have h1 : st.abortItem
        = { st with taskGroup := st.taskGroup.abort,
                    abortRequested := false } := by
      unfold MultiCmdState.abortItem
      simp [hph, MgExecTaskGroup.abort, hcntD]
    rw [h1]
    refine ⟨hne, hdisp, ?_, ?_, ?_, ?_⟩
    · intro h; simp [hph] at h
    · intro h; simp [hph] at h
    · intro h; simp [hph] at h
    · intro _
      exact ⟨hcntD, hnsD⟩

/-- Every reachable runner state satisfies the invariant. -/
theorem reachable_inv (st : MultiCmdState) (h : MultiReachable st) : RunnerInv st := by
  induction h with
  | init g askQ hg =>
    obtain ⟨hne, hab, hall⟩ := hg
    refine ⟨hne, by simp [mkInit], ?_, ?_, ?_, ?_⟩
    · intro _
      exact ⟨hall, rfl, rfl, rfl, rfl⟩
    · intro h2
      simp [mkInit] at h2
    · intro h2
      simp [mkInit] at h2
    · intro h2
      simp [mkInit] at h2
  | step st1 st2 hreach hstep ih =>
    cases hstep with
    | start hph => exact inv_start st1 ih hph
    | complete s o hph => exact inv_complete st1 ih hph s o
    | choice c hph hc => exact inv_choice st1 ih hph c hc
    | abortReq => exact inv_abortItem st1 ih

/-- Reachability is preserved along multiple steps. -/
theorem reachable_steps (st st2 : MultiCmdState) (h : MultiReachable st)
    (hs : MultiSteps st st2) : MultiReachable st2 := by
  induction hs with
  | refl => exact h
  | tail b c hab hbc ih => exact MultiReachable.step _ _ ih hbc

/-- From a finalized state, one step leaves the task list, the phase, the
completion history and the done count unchanged. -/
theorem done_step_frozen (st st2 : MultiCmdState) (hinv : RunnerInv st)
    (hph : st.phase = RunnerPhase.Done) (hstep : MultiStep st st2) :
    st2.taskGroup.tasks = st.taskGroup.tasks ∧ st2.phase = RunnerPhase.Done ∧
    st2.doneEvents = st.doneEvents ∧ st2.nbCmdDone = st.nbCmdDone := by
  obtain ⟨hne, hdisp, _, _, _, hdoneInv⟩ := hinv
  obtain ⟨hcntD, hnsD⟩ := hdoneInv hph
  cases hstep with
  | start h =>
    rw [hph] at h
    simp at h
  | complete s o h =>
    rw [hph] at h
    simp at h
  | choice c h hc =>
    rw [hph] at h
    simp at h
  | abortReq =>
    have h1 : st.abortItem
        = { st with taskGroup := st.taskGroup.abort,
                    abortRequested := false } := by
      unfold MultiCmdState.abortItem
      simp [hph, MgExecTaskGroup.abort, hcntD]
    rw [h1]
    exact ⟨rfl, hph, rfl, rfl⟩

/-- From a reachable finalized state, any number of steps leaves the task
list, the phase, the completion history and the done count unchanged. -/
theorem done_steps_frozen (st st2 : MultiCmdState) (hreach : MultiReachable st)
    (hph : st.phase = RunnerPhase.Done) (hs : MultiSteps st st2) :
    st2.taskGroup.tasks = st.taskGroup.tasks ∧ st2.phase = RunnerPhase.Done ∧
    st2.doneEvents = st.doneEvents ∧ st2.nbCmdDone = st.nbCmdDone := by
  induction hs with
  | refl => exact ⟨rfl, hph, rfl, rfl⟩
  | tail b c hab hbc ih =>
    obtain ⟨ht, hp, hd, hn⟩ := ih
    have hreachb : MultiReachable b := reachable_steps _ _ hreach hab
    obtain ⟨ht2, hp2, hd2, hn2⟩ :=
      done_step_frozen b c (reachable_inv b hreachb) hp hbc
    exact ⟨ht2.trans ht, hp2, hd2.trans hd, hn2.trans hn⟩

/-- C3: in every reachable runner state, if the task at position i is
Started, then every task before position i is finished (Successful or
Errored) and every task after position i is NotStarted — so tasks run
strictly in sequence order and task i+1 never starts before task i reaches
a terminal state (possibly followed by a user-chosen continuation). -/
theorem claim_C3 (st : MultiCmdState) (hreach : MultiReachable st)
    (i : Nat) (t : MgExecTask)
    (hget : st.taskGroup.tasks[i]? = some t)
    (hs : t.task_state = TaskState.Started) :
    (∀ j u, j < i → st.taskGroup.tasks[j]? = some u →
      u.task_state = TaskState.Successful ∨ u.task_state = TaskState.Errored) ∧
    (∀ j u, i < j → st.taskGroup.tasks[j]? = some u →
      u.task_state = TaskState.NotStarted) := by
  obtain ⟨hne, hdisp, hidleInv, hrunInv, hwaitInv, hdoneInv⟩ := reachable_inv st hreach
  cases hph : st.phase with
  | Idle =>
    obtain ⟨hall, _⟩ := hidleInv hph
    have h2 := hall t (List.mem_iff_getElem?.mpr ⟨i, hget⟩)
    rw [h2] at hs
    simp at hs
  | Running =>
    obtain ⟨hstart, k, hidx, hk, hcnt, hcur, hbefore, hafter⟩ := hrunInv hph
    have hik : i = k := by
      by_cases h : i = k
      · exact h
      · exfalso
        rcases Nat.lt_or_ge i k with hlt | hge
        · rcases hbefore i t hlt hget with h2 | h2 <;> (rw [h2] at hs; simp at hs)
        · have h2 := hafter i t (by omega) hget
          rw [h2] at hs
          simp at hs
    subst hik
    exact ⟨fun j u hj hu => hbefore j u hj hu, fun j u hj hu => hafter j u hj hu⟩
  | AwaitingChoice =>
    exfalso
    obtain ⟨hstart, hab, hq, herr, k, hidx, hk, hcnt, hcur, hbefore, hafter⟩ :=
      hwaitInv hph
    by_cases h : i = k
    · subst h
      rw [hcur t hget] at hs
      simp at hs
    · rcases Nat.lt_or_ge i k with hlt | hge
      · rcases hbefore i t hlt hget with h2 | h2 <;> (rw [h2] at hs; simp at hs)
      · have h2 := hafter i t (by omega) hget
        rw [h2] at hs
        simp at hs
  | Done =>
    exfalso
    obtain ⟨_, hnsD⟩ := hdoneInv hph
    exact hnsD t (List.mem_iff_getElem?.mpr ⟨i, hget⟩) hs

/-- Witness for C3: after the start of scenario C, task 0 is Started; the
task before it (none) and after it (T2) satisfy the invariant. -/
theorem claim_C3_witness :
    (∀ j u, j < 0 → scC1.taskGroup.tasks[j]? = some u →
      u.task_state = TaskState.Successful ∨ u.task_state = TaskState.Errored) ∧
    (∀ j u, 0 < j → scC1.taskGroup.tasks[j]? = some u →
      u.task_state = TaskState.NotStarted) :=
  claim_C3 scC1
    (MultiReachable.step _ _ (MultiReachable.init grpC true (by decide))
      (MultiStep.start _ rfl))
    0 { desc := "T1", ignore_failure := false, task_state := TaskState.Started,
        cmd_line := "" }
    (by decide) rfl

/-- C6: when the user chooses Retry for the failed task at position
taskIdx, the runner rolls back doneCount, errorCount and taskIdx by one
attempt, re-dispatches exactly that task once more (its dispatch count
rises by one, every other task and dispatch count is untouched) and
resumes running; in scenario D ([T1 fails], Retry chosen, second attempt
succeeds) the final doneCount is 1, errorCount is 0 and the completion
callback reports overall success true, exactly once. -/
theorem claim_C6 (st : MultiCmdState) (hreach : MultiReachable st)
    (hph : st.phase = RunnerPhase.AwaitingChoice) :
    (st.handleQuestionResult UserAction.RETRY).nbCmdDone + 1 = st.nbCmdDone ∧
    (st.handleQuestionResult UserAction.RETRY).nbError + 1 = st.nbError ∧
    (st.handleQuestionResult UserAction.RETRY).taskIdx = st.taskIdx ∧
    (st.handleQuestionResult UserAction.RETRY).phase = RunnerPhase.Running ∧
    (∃ u, (st.handleQuestionResult UserAction.RETRY).taskGroup.tasks[st.taskIdx.toNat]?
        = some u ∧ u.task_state = TaskState.Started) ∧
    ((st.handleQuestionResult UserAction.RETRY).dispatches[st.taskIdx.toNat]?
      = (st.dispatches[st.taskIdx.toNat]?).map (fun n => n + 1)) ∧
    (∀ j, ¬ j = st.taskIdx.toNat →
      (st.handleQuestionResult UserAction.RETRY).taskGroup.tasks[j]?
          = st.taskGroup.tasks[j]? ∧
      (st.handleQuestionResult UserAction.RETRY).dispatches[j]? = st.dispatches[j]?) ∧
    scD4.nbCmdDone = 1 ∧ scD4.nbError = 0 ∧ scD4.doneEvents = [true] := by
  obtain ⟨hne, hdisp, _, _, hwaitInv, _⟩ := reachable_inv st hreach
  obtain ⟨hstart, hab, hq, herr, k, hidx, hk, hcnt, hcur, hbefore, hafter⟩ :=
    hwaitInv hph
  have h1 : st.handleQuestionResult UserAction.RETRY = st.runOneCmdline true := by
    unfold MultiCmdState.handleQuestionResult
    simp [hab]
  obtain ⟨tk, htk⟩ : ∃ t, st.taskGroup.tasks[k]? = some t :=
    ⟨_, List.getElem?_eq_some_iff.mpr ⟨hk, rfl⟩⟩
  have htkerr : tk.task_state = TaskState.Errored := hcur tk htk
  have hkt : st.taskIdx.toNat = k := by
    rw [hidx]
    exact Int.toNat_natCast k
  have hkd : k < st.dispatches.length := by omega
  obtain ⟨v, hv⟩ : ∃ v, st.dispatches[k]? = some v :=
    ⟨_, List.getElem?_eq_some_iff.mpr ⟨hkd, rfl⟩⟩
  rw [h1, runOne_retry_eq _ k tk hidx htk (by simp [htkerr]), hkt]
  refine ⟨?_, ?_, hidx.symm, rfl, ?_, ?_, ?_, by decide, by decide, by decide⟩
  · show st.nbCmdDone - 1 + 1 = st.nbCmdDone
    omega
  · show st.nbError - 1 + 1 = st.nbError
    omega
  · refine ⟨{ tk with task_state := TaskState.Started }, ?_, rfl⟩
    exact List.getElem?_set_self hk
  · rw [hv]
    have hb : bumpAt st.dispatches k = st.dispatches.set k (v + 1) := by
      rw [bumpAt, List.getD_eq_getElem?_getD, hv]
      rfl
    rw [hb, List.getElem?_set_self hkd]
    rfl
  · intro j hj
    constructor
    · exact List.getElem?_set_ne (fun h => hj h.symm)
    · rw [bumpAt]
      exact List.getElem?_set_ne (fun h => hj h.symm)

/-- Witness for C6 at scenario D after the failure of T1. -/
theorem claim_C6_witness :
    (scD2.handleQuestionResult UserAction.RETRY).nbCmdDone + 1 = scD2.nbCmdDone ∧
    (scD2.handleQuestionResult UserAction.RETRY).nbError + 1 = scD2.nbError ∧
    (scD2.handleQuestionResult UserAction.RETRY).taskIdx = scD2.taskIdx ∧
    (scD2.handleQuestionResult UserAction.RETRY).phase = RunnerPhase.Running ∧
    (∃ u, (scD2.handleQuestionResult UserAction.RETRY).taskGroup.tasks[scD2.taskIdx.toNat]?
        = some u ∧ u.task_state = TaskState.Started) ∧
    ((scD2.handleQuestionResult UserAction.RETRY).dispatches[scD2.taskIdx.toNat]?
      = (scD2.dispatches[scD2.taskIdx.toNat]?).map (fun n => n + 1)) ∧
    (∀ j, ¬ j = scD2.taskIdx.toNat →
      (scD2.handleQuestionResult UserAction.RETRY).taskGroup.tasks[j]?
          = scD2.taskGroup.tasks[j]? ∧
      (scD2.handleQuestionResult UserAction.RETRY).dispatches[j]? = scD2.dispatches[j]?) ∧
    scD4.nbCmdDone = 1 ∧ scD4.nbError = 0 ∧ scD4.doneEvents = [true] :=
  claim_C6 scD2
    (MultiReachable.step _ _
      (MultiReachable.step _ _ (MultiReachable.init grpD true (by decide))
        (MultiStep.start _ rfl))
      (MultiStep.complete _ false "boom" rfl))
    rfl

/-- C8: with askQuestionUponFailure = false, an unmasked failure of the
in-flight task finalizes the group immediately: the failure is counted in
nbError, the completion callback fires once more with overall success
false, no question phase is entered (the state goes straight to Done), and
in this and every later reachable state no task after the failed one is
ever started — all tasks past the failed position stay NotStarted. -/
theorem claim_C8 (st st2 : MultiCmdState) (o : String) (t : MgExecTask)
    (hreach : MultiReachable st)
    (hph : st.phase = RunnerPhase.Running)
    (hq : st.askQuestionUponFailure = false)
    (hget : st.taskGroup.tasks[st.taskIdx.toNat]? = some t)
    (hign : t.ignore_failure = false)
    (hsteps : MultiSteps (st.taskCompletes false o) st2) :
    (st.taskCompletes false o).phase = RunnerPhase.Done ∧
    (st.taskCompletes false o).nbError = st.nbError + 1 ∧
    (st.taskCompletes false o).doneEvents = st.doneEvents ++ [false] ∧
    st2.phase = RunnerPhase.Done ∧
    (∀ j u, st.taskIdx.toNat < j → st2.taskGroup.tasks[j]? = some u →
      u.task_state = TaskState.NotStarted) := by
  obtain ⟨hne, hdisp, _, hrunInv, _, _⟩ := reachable_inv st hreach
  obtain ⟨hstart, k, hidx, hk, hcnt, hcur, hbefore, hafter⟩ := hrunInv hph
  have hkt : st.taskIdx.toNat = k := by
    rw [hidx]
    exact Int.toNat_natCast k
  rw [hkt] at hget
  have he : (t.task_done false o).2.success = false := by
    simp [MgExecTask.task_done, hign]
  have hpostEq : st.taskCompletes false o
      = ({ st with
           taskGroup := { st.taskGroup with
             tasks := st.taskGroup.tasks.set k (t.task_done false o).1 },
           nbCmdDone := st.nbCmdDone + 1,
           nbError := st.nbError + 1 } : MultiCmdState).allCmdDone := by
    rw [taskCompletes_eq st k t hidx hget, he]
    by_cases hA : st.abortRequested = true
    · rw [slot_eq_fail_aborted _ (by exact hA)]
    · rw [slot_eq_fail_noquestion _ (by exact (by simpa using hA)) (by exact hq)]
  have hpostPhase : (st.taskCompletes false o).phase = RunnerPhase.Done := by
    rw [hpostEq]
    rfl
  have hreachPost : MultiReachable (st.taskCompletes false o) :=
    MultiReachable.step _ _ hreach (MultiStep.complete _ false o hph)
  obtain ⟨hfrozTasks, hfrozPhase, _, _⟩ :=
    done_steps_frozen _ st2 hreachPost hpostPhase hsteps
  refine ⟨hpostPhase, by rw [hpostEq]; rfl, ?_, hfrozPhase, ?_⟩
  · rw [hpostEq]
    show st.doneEvents ++ [decide (st.nbError + 1 = 0) && !st.abortRequested]
        = st.doneEvents ++ [false]
    simp
  · intro j u hj hu
    rw [hfrozTasks, hpostEq] at hu
    rw [hkt] at hj
    have hu2 : st.taskGroup.tasks[j]? = some u := by
      rw [show ((({ st with
           taskGroup := { st.taskGroup with
             tasks := st.taskGroup.tasks.set k (t.task_done false o).1 },
           nbCmdDone := st.nbCmdDone + 1,
           nbError := st.nbError + 1 } : MultiCmdState).allCmdDone).taskGroup.tasks)
          = st.taskGroup.tasks.set k (t.task_done false o).1 from rfl] at hu
      rw [List.getElem?_set_ne (by omega)] at hu
      exact hu
    exact hafter j u hj hu2

/-- Witness for C8 at scenario B: T1 of [T1, T2] fails with questions off. -/
theorem claim_C8_witness :
    (scB1.taskCompletes false "boom").phase = RunnerPhase.Done ∧
    (scB1.taskCompletes false "boom").nbError = scB1.nbError + 1 ∧
    (scB1.taskCompletes false "boom").doneEvents = scB1.doneEvents ++ [false] ∧
    (scB1.taskCompletes false "boom").phase = RunnerPhase.Done ∧
    (∀ j u, scB1.taskIdx.toNat < j →
      (scB1.taskCompletes false "boom").taskGroup.tasks[j]? = some u →
      u.task_state = TaskState.NotStarted) :=
  claim_C8 scB1 (scB1.taskCompletes false "boom") "boom"
    { desc := "T1", ignore_failure := false, task_state := TaskState.Started,
      cmd_line := "" }
    (MultiReachable.step _ _ (MultiReachable.init grpC false (by decide))
      (MultiStep.start _ rfl))
    rfl rfl (by decide) rfl (MultiSteps.refl _)

/-- C9 counterexample: scS2 is a finalized run of a one-task group whose
task finished successfully; after abortItem the group queries change:
is_successful drops from true to false and is_errored rises from false to
true, because abortItem unconditionally sets the group aborted flag before
checking whether everything was already done. -/
theorem claim_C9_counterexample :
    scS2.taskGroup.is_successful = true ∧ scS2.taskGroup.is_errored = false ∧
    (scS2.abortItem).taskGroup.is_successful = false ∧
    (scS2.abortItem).taskGroup.is_errored = true := by
  refine ⟨?_, ?_, ?_, ?_⟩ <;> decide

/-- C9 (amended): calling abortItem on a finalized group run issues no new
completion callback, leaves the task states, the done count and the
completion history unchanged, resets the abortRequested flag and keeps
is_finished true — the reported completion result stands — but it does set
the group aborted flag, so the group-level queries is_successful and
is_errored are not preserved (a fully successful finished group reports
is_successful = false and is_errored = true afterwards). -/
theorem claim_C9 (st : MultiCmdState) (hreach : MultiReachable st)
    (hph : st.phase = RunnerPhase.Done) :
    (st.abortItem).doneEvents = st.doneEvents ∧
    (st.abortItem).taskGroup.tasks = st.taskGroup.tasks ∧
    (st.abortItem).nbCmdDone = st.nbCmdDone ∧
    (st.abortItem).abortRequested = false ∧
    (st.abortItem).taskGroup.aborted = true ∧
    (st.abortItem).taskGroup.is_finished = true ∧
    (st.abortItem).phase = RunnerPhase.Done := by
  obtain ⟨_, _, _, _, _, hdoneInv⟩ := reachable_inv st hreach
  obtain ⟨hcntD, _⟩ := hdoneInv hph
  have h1 : st.abortItem
      = { st with taskGroup := st.taskGroup.abort,
                  abortRequested := false } := by
    unfold MultiCmdState.abortItem
    simp [hph, MgExecTaskGroup.abort, hcntD]
  rw [h1]
  refine ⟨rfl, rfl, rfl, rfl, rfl, ?_, hph⟩
  simp [MgExecTaskGroup.is_finished, MgExecTaskGroup.is_aborted,
    MgExecTaskGroup.abort]

/-- Witness for C9 (amended) at the finalized successful one-task run. -/
theorem claim_C9_witness :
    (scS2.abortItem).doneEvents = scS2.doneEvents ∧
    (scS2.abortItem).taskGroup.tasks = scS2.taskGroup.tasks ∧
    (scS2.abortItem).nbCmdDone = scS2.nbCmdDone ∧
    (scS2.abortItem).abortRequested = false ∧
    (scS2.abortItem).taskGroup.aborted = true ∧
    (scS2.abortItem).taskGroup.is_finished = true ∧
    (scS2.abortItem).phase = RunnerPhase.Done :=
  claim_C9 scS2
    (MultiReachable.step _ _
      (MultiReachable.step _ _ (MultiReachable.init grpD true (by decide))
        (MultiStep.start _ rfl))
      (MultiStep.complete _ true "fine" rfl))
    rfl
